import Mathlib

/-!
Verification of the pod5/mkr signal codec and signal table storage layer.

The development shallowly embeds, over `Nat`:
* the svb16 variable-byte transform with delta and zigzag preprocessing
  (the svb16 headers are not among the sources, so the transform is
  modelled from the specification);
* the two-stage signal codec `compress_signal` / `decompress_signal`
  from signal_compression.cpp, with zstd treated as an opaque
  capability interface with a documented contract;
* the signal table schema builder and validator from
  signal_table_schema.cpp;
* the batching signal table writer, modelled from the specification
  (only its header is among the sources).

A sample is a 16-bit pattern, a `Nat` below 65536; a byte is a `Nat`
below 256.
-/

namespace Pod5

/-- Modelled from the spec: the zigzag mapping from signed 16-bit values
(as two's-complement patterns) to unsigned values, 0 -> 0, -1 -> 1,
1 -> 2, -2 -> 3, over 16-bit width.  The svb16 headers that implement it
are not among the sources. -/
def zigzag (d : Nat) : Nat :=
  if d < 32768 then 2 * d else 2 * (65536 - d) - 1

/-- Modelled from the spec: inverse of the zigzag mapping. -/
def unzigzag (z : Nat) : Nat :=
  if z % 2 = 0 then z / 2 else 65536 - (z + 1) / 2

/-- Modelled from the spec: the delta (first-difference) pre-transform,
each sample replaced by its wrapping 16-bit difference from the previous
sample, previous = 0 for the first element. -/
def deltaEnc (prev : Nat) : List Nat → List Nat
  | [] => []
  | s :: rest => ((65536 + s - prev) % 65536) :: deltaEnc s rest

/-- Modelled from the spec: prefix-sum inverse of the delta transform. -/
def deltaDec (prev : Nat) : List Nat → List Nat
  | [] => []
  | d :: rest => ((prev + d) % 65536) :: deltaDec ((prev + d) % 65536) rest

/-- Modelled from the spec: payload bytes of one zigzag-mapped value,
1 byte for values below 256, otherwise 2 bytes little-endian. -/
def encBytes (z : Nat) : List Nat :=
  if z < 256 then [z] else [z % 256, z / 256]

/-- Numeric value of one 2-bit length code: 1 when the sample takes two
payload bytes, 0 when it takes one. -/
def codeVal (b : Bool) : Nat := if b then 1 else 0

/-- Modelled from the spec: the descriptor side-channel, one byte
carrying four samples' 2-bit length codes. -/
def packCodes : List Bool → List Nat
  | [] => []
  | [c0] => [codeVal c0]
  | [c0, c1] => [codeVal c0 + 4 * codeVal c1]
  | [c0, c1, c2] => [codeVal c0 + 4 * codeVal c1 + 16 * codeVal c2]
  | c0 :: c1 :: c2 :: c3 :: rest =>
      (codeVal c0 + 4 * codeVal c1 + 16 * codeVal c2 + 64 * codeVal c3) ::
        packCodes rest

/-- First `k` 2-bit length codes carried by descriptor byte `b`. -/
def codesFrom (b k : Nat) : List Bool :=
  (List.range k).map fun i => decide ((b / 4 ^ i) % 4 % 2 = 1)

/-- Modelled from the spec: reading `n` length codes back out of the
descriptor bytes, four per byte. -/
def unpackCodes (n : Nat) (bytes : List Nat) : List Bool :=
  match n, bytes with
  | 0, _ => []
  | _ + 1, [] => []
  | m + 1, b :: rest => codesFrom b (min (m + 1) 4) ++ unpackCodes (m + 1 - 4) rest

/-- Modelled from the spec: payload byte decoding, driven by the length
codes; returns the decoded zigzag values and the number of payload bytes
consumed, or nothing on a shortfall. -/
def decodeData : List Bool → List Nat → Option (List Nat × Nat)
  | [], _ => some ([], 0)
  | false :: cs, b :: rest =>
      match decodeData cs rest with
      | none => none
      | some (zs, k) => some (b :: zs, k + 1)
  | true :: cs, lo :: hi :: rest =>
      match decodeData cs rest with
      | none => none
      | some (zs, k) => some ((lo + 256 * hi) :: zs, k + 2)
  | _ :: _, _ => none

/-- Modelled from the spec: the svb16 transform encoder, delta then
zigzag preprocessing, then group-varint byte packing, descriptor bytes
first, payload bytes after.  The svb16 encode header is not among the
sources. -/
def svb16_encode (samples : List Nat) : List Nat :=
  let zs := (deltaEnc 0 samples).map zigzag
  packCodes (zs.map fun z => decide (256 ≤ z)) ++ (zs.map encBytes).flatten

/-- Modelled from the spec: the closed-form maximum encoded length of
the transform, ceil of n / 4 descriptor bytes plus up to 2 payload bytes
per sample; svb16_max_encoded_length is declared but not defined among
the sources. -/
def svb16_max_encoded_length (n : Nat) : Nat :=
  (n + 3) / 4 + 2 * n

/-- Modelled from the spec: the svb16 transform decoder.  Given the byte
stream and the expected sample count it reverses byte unpacking, zigzag
and delta, returning the samples and the exact number of bytes consumed;
it returns nothing on a shortfall. -/
def svb16_decode (bytes : List Nat) (count : Nat) : Option (List Nat × Nat) :=
  let dBytes := (count + 3) / 4
  if bytes.length < dBytes then none
  else
    (decodeData (unpackCodes count (bytes.take dBytes)) (bytes.drop dBytes)).map
      fun p => (deltaDec 0 (p.1.map unzigzag), dBytes + p.2)

/-- Modelled from the spec: the opaque external compressor (zstd) as a
capability interface exposing a bound, compress at the build-configured
level, decompress, and the frame content size. -/
structure ZstdModel where
  compressBound : Nat → Nat
  compress : List Nat → Option (List Nat)
  decompress : List Nat → Option (List Nat)
  getFrameContentSize : List Nat → Option Nat

/-- Modelled from the spec: the documented contract of the external
compressor: decompression inverts compression, the frame stores the
content size of the data that was compressed, output length respects the
bound, and the bound is monotone. -/
structure ZstdModel.Conforms (Z : ZstdModel) : Prop where
  decompress_compress : ∀ b c, Z.compress b = some c → Z.decompress c = some b
  contentSize_compress : ∀ b c, Z.compress b = some c →
    Z.getFrameContentSize c = some b.length
  length_compress_le : ∀ b c, Z.compress b = some c →
    c.length ≤ Z.compressBound b.length
  compressBound_mono : ∀ m n, m ≤ n → Z.compressBound m ≤ Z.compressBound n

/-- Embeds compressed_signal_max_size from signal_compression.cpp:
the zstd bound applied to the maximum svb16 encoded length. -/
def compressed_signal_max_size (Z : ZstdModel) (sample_count : Nat) : Nat :=
  Z.compressBound (svb16_max_encoded_length sample_count)

/-- Embeds compress_signal from signal_compression.cpp: svb16-encode the
samples with delta and zigzag enabled, then compress the intermediate
buffer with zstd; nothing is returned when the compressor fails. -/
def compress_signal (Z : ZstdModel) (samples : List Nat) : Option (List Nat) :=
  Z.compress (svb16_encode samples)

/-- Embeds decompress_signal from signal_compression.cpp, with the
expected sample count supplied by the caller as the spec infers: read
the frame content size (error when unknown), decompress with zstd (error
on failure), svb16-decode the intermediate buffer, and error when the
decoder does not consume exactly the reported intermediate length. -/
def decompress_signal (Z : ZstdModel) (compressed : List Nat)
    (sample_count : Nat) : Option (List Nat) :=
  (Z.getFrameContentSize compressed).bind fun decompressed_zstd_size =>
    (Z.decompress compressed).bind fun intermediate =>
      (svb16_decode intermediate sample_count).bind fun p =>
        if p.2 = decompressed_zstd_size then some p.1 else none

/-- Trivially conforming compressor used to exhibit concrete runs of the
pipeline: it stores bytes unchanged. -/
def idZstd : ZstdModel where
  compressBound := fun n => n
  compress := fun b => some b
  decompress := fun b => some b
  getFrameContentSize := fun b => some b.length

/-- Compressor model whose frame content size is never available,
standing for malformed or foreign-format input. -/
def unknownFrameZstd : ZstdModel where
  compressBound := fun n => n
  compress := fun _ => none
  decompress := fun b => some b
  getFrameContentSize := fun _ => none

/-- Compressor model that reports a frame size but fails to decompress,
standing for a corrupted frame body. -/
def failingDecompressZstd : ZstdModel where
  compressBound := fun n => n
  compress := fun _ => none
  decompress := fun _ => none
  getFrameContentSize := fun _ => some 0

end Pod5

namespace Mkr

/-- Shallow embedding of the arrow data types the signal table schema
code distinguishes: the validator inspects a type id (EXTENSION,
LARGE_LIST, UINT32, INT16, ...), an extension name, and a list value
type. -/
inductive DataType where
  | int16
  | uint32
  | extension (extName : String)
  | largeList (value : DataType)
  | list (value : DataType)
  | fixedSizeBinary (width : Nat)
  | other (typeName : String)
deriving DecidableEq

/-- Display name of a type, as used in the validator error messages. -/
def DataType.name : DataType → String
  | .int16 => "int16"
  | .uint32 => "uint32"
  | .extension _ => "extension"
  | .largeList _ => "large_list"
  | .list _ => "list"
  | .fixedSizeBinary _ => "fixed_size_binary"
  | .other typeName => typeName

/-- One arrow field: a column name paired with a type. -/
structure SchemaField where
  name : String
  type : DataType
deriving DecidableEq

/-- One arrow schema: an ordered field list plus key/value metadata. -/
structure ArrowSchema where
  fields : List SchemaField
  metadata : List (String × String)
deriving DecidableEq

/-- Typed content of the TypeError statuses raised by
read_signal_table_schema; each carries the column it names. -/
inductive SchemaError where
  | missingField (fieldName : String)
  | wrongType (fieldName : String) (found : String)
  | wrongExtensionType (fieldName : String)
  | wrongListValueType (fieldName : String)
deriving DecidableEq

/-- Column named by a validator error. -/
def SchemaError.fieldName : SchemaError → String
  | .missingField n => n
  | .wrongType n _ => n
  | .wrongExtensionType n => n
  | .wrongListValueType n => n

/-- Resolved column positions, as in signal_table_schema.cpp. -/
structure SignalTableSchemaDescription where
  read_id : Nat
  signal : Nat
  samples : Nat
deriving DecidableEq

/-- Index of the first field with the given name, as
arrow Schema GetFieldIndex (none standing for -1). -/
def fieldIndexOf (name : String) : List SchemaField → Option Nat
  | [] => none
  | f :: rest =>
      if f.name = name then some 0 else (fieldIndexOf name rest).map (· + 1)

def getFieldIndex (s : ArrowSchema) (name : String) : Option Nat :=
  fieldIndexOf name s.fields

/-- Type of the field at a position (arbitrary out of range; only used
at positions returned by getFieldIndex). -/
def fieldTypeAt (s : ArrowSchema) (i : Nat) : DataType :=
  (s.fields.getD i ⟨"", .other ""⟩).type

/-- Type of the first field with the given name, when present. -/
def lookupFieldType (name : String) : List SchemaField → Option DataType
  | [] => none
  | f :: rest => if f.name = name then some f.type else lookupFieldType name rest

def lookupType (s : ArrowSchema) (name : String) : Option DataType :=
  lookupFieldType name s.fields

/-- Modelled from the spec: the uuid() extension type from the mkr type
helpers, which are not among the sources; the validator requires a
128-bit unique-identifier extension type named minknow.uuid. -/
def uuid : DataType := .extension "minknow.uuid"

/-- Embeds make_signal_table_schema from signal_table_schema.cpp: the
three fields read_id, signal and samples, with the metadata attached. -/
def make_signal_table_schema (metadata : List (String × String)) : ArrowSchema :=
  ⟨[⟨"read_id", uuid⟩,
    ⟨"signal", .largeList .int16⟩,
    ⟨"samples", .uint32⟩], metadata⟩

/-- Embeds the read_id block of read_signal_table_schema: missing field,
non-extension type, or an extension type other than minknow.uuid are
errors. -/
def checkReadId (s : ArrowSchema) : Except SchemaError Nat :=
  match getFieldIndex s "read_id" with
  | none => .error (.missingField "read_id")
  | some idx =>
    match fieldTypeAt s idx with
    | .extension extName =>
        if extName = "minknow.uuid" then .ok idx
        else .error (.wrongExtensionType "read_id")
    | t => .error (.wrongType "read_id" t.name)

/-- Embeds the signal block of read_signal_table_schema: the type must
be LARGE_LIST with INT16 value type. -/
def checkSignal (s : ArrowSchema) : Except SchemaError Nat :=
  match getFieldIndex s "signal" with
  | none => .error (.missingField "signal")
  | some idx =>
    match fieldTypeAt s idx with
    | .largeList .int16 => .ok idx
    | .largeList _ => .error (.wrongListValueType "signal")
    | t => .error (.wrongType "signal" t.name)

/-- Embeds the samples block of read_signal_table_schema: the type must
be UINT32. -/
def checkSamples (s : ArrowSchema) : Except SchemaError Nat :=
  match getFieldIndex s "samples" with
  | none => .error (.missingField "samples")
  | some idx =>
    match fieldTypeAt s idx with
    | .uint32 => .ok idx
    | t => .error (.wrongType "samples" t.name)

/-- Embeds read_signal_table_schema from signal_table_schema.cpp: the
three blocks in order, each early-returning its error, and on success
the resolved positions. -/
def read_signal_table_schema (s : ArrowSchema) :
    Except SchemaError SignalTableSchemaDescription :=
  match checkReadId s with
  | .error e => .error e
  | .ok read_id_field_idx =>
    match checkSignal s with
    | .error e => .error e
    | .ok signal_field_idx =>
      match checkSamples s with
      | .error e => .error e
      | .ok samples_field_idx =>
          .ok ⟨read_id_field_idx, signal_field_idx, samples_field_idx⟩

/-- Position a successful validation resolves for a column. -/
def resolvedIdx (s : ArrowSchema) (name : String) : Nat :=
  (getFieldIndex s name).getD 0

/-- The read_id column is present (first occurrence) with the exact type
the validator accepts. -/
def goodReadId (s : ArrowSchema) : Bool :=
  decide (lookupType s "read_id" = some (.extension "minknow.uuid"))

/-- The signal column is present with the exact type the validator
accepts. -/
def goodSignal (s : ArrowSchema) : Bool :=
  decide (lookupType s "signal" = some (.largeList .int16))

/-- The samples column is present with the exact type the validator
accepts. -/
def goodSamples (s : ArrowSchema) : Bool :=
  decide (lookupType s "samples" = some .uint32)

/-- One buffered signal record: read id bits, encoded payload bytes,
sample count. -/
abbrev Row : Type := Nat × List Nat × Nat

/-- Typed writer failures: operating a closed writer, codec failure in
add_read, the sink rejecting a batch in flush. -/
inductive WriterError where
  | writerClosed
  | encodingFailed
  | sinkError
deriving DecidableEq

/-- Modelled from the spec: state of the batching SignalTableWriter,
whose implementation is not among the sources (only its header is):
the closed flag, the count of rows already flushed, the rows buffered in
the current batch (so current_batch_row_count is batch.length), and the
batches the sink has accepted, in flush order. -/
structure SignalTableWriter where
  closed : Bool
  m_flushed_row_count : Nat
  batch : List Row
  emitted : List (List Row)
deriving DecidableEq

/-- Current batch row count of the writer, the length of the buffer. -/
def current_batch_row_count (w : SignalTableWriter) : Nat := w.batch.length

/-- Rows the writer has accepted so far: flushed plus buffered. -/
def totalRows (w : SignalTableWriter) : Nat :=
  w.m_flushed_row_count + w.batch.length

/-- Modelled from the spec: add_read requires the writer not closed,
compresses the samples with the codec (failing without appending when
the codec fails), appends the record to the batch and returns the global
row index flushed_row_count + current_batch_row_count - 1. -/
def add_read (Z : Pod5.ZstdModel) (w : SignalTableWriter) (read_id : Nat)
    (samples : List Nat) : Except WriterError Nat × SignalTableWriter :=
  if w.closed then (.error .writerClosed, w)
  else
    match Pod5.compress_signal Z samples with
    | none => (.error .encodingFailed, w)
    | some payload =>
        (.ok (w.m_flushed_row_count + w.batch.length),
         { w with batch := w.batch ++ [(read_id, payload, samples.length)] })

/-- Modelled from the spec: flush fails on a closed writer, is a no-op
on an empty batch, and otherwise hands the batch to the sink; on
acceptance it adds the batch length to flushed_row_count, resets the
batch and records the emission, and on rejection it leaves the writer
unchanged so the caller may retry. -/
def flush (accept : List Row → Bool) (w : SignalTableWriter) :
    Option WriterError × SignalTableWriter :=
  if w.closed then (some .writerClosed, w)
  else if w.batch.isEmpty then (none, w)
  else if accept w.batch then
    (none,
     { closed := false,
       m_flushed_row_count := w.m_flushed_row_count + w.batch.length,
       batch := [],
       emitted := w.emitted ++ [w.batch] })
  else (some .sinkError, w)

/-- Modelled from the spec: close flushes pending rows then transitions
to Closed; calls after the first succeed as no-ops. -/
def close (accept : List Row → Bool) (w : SignalTableWriter) :
    Option WriterError × SignalTableWriter :=
  if w.closed then (none, w)
  else
    match flush accept w with
    | (some e, w1) => (some e, w1)
    | (none, w1) => (none, { w1 with closed := true })

/-- One step of a writer trace: an add_read call or a flush call against
a sink with the given acceptance behaviour. -/
inductive WriterOp where
  | addRead (read_id : Nat) (samples : List Nat)
  | flushOp (accept : List Row → Bool)

/-- Writer state at construction: open, nothing flushed, empty batch. -/
def initWriter : SignalTableWriter := ⟨false, 0, [], []⟩

/-- Runs a trace of writer operations, collecting the row indices the
successful add_read calls return, in call order. -/
def runOps (Z : Pod5.ZstdModel) :
    List WriterOp → SignalTableWriter → SignalTableWriter × List Nat
  | [], w => (w, [])
  | .addRead rid samples :: rest, w =>
      match add_read Z w rid samples with
      | (.ok i, w1) =>
          let next := runOps Z rest w1
          (next.1, i :: next.2)
      | (.error _, w1) => runOps Z rest w1
  | .flushOp accept :: rest, w =>
      runOps Z rest (flush accept w).2

end Mkr

namespace Pod5

theorem zigzag_lt (d : Nat) (h : d < 65536) : zigzag d < 65536 := by
  unfold zigzag; split <;> omega

theorem unzigzag_zigzag (d : Nat) (h : d < 65536) : unzigzag (zigzag d) = d := by
  unfold zigzag unzigzag
  by_cases hd : d < 32768
  · rw [if_pos hd, if_pos (by omega : 2 * d % 2 = 0)]
    omega
  · rw [if_neg hd, if_neg (by omega : ¬(2 * (65536 - d) - 1) % 2 = 0)]
    omega

theorem deltaEnc_length (prev : Nat) (S : List Nat) :
    (deltaEnc prev S).length = S.length := by
  induction S generalizing prev with
  | nil => rfl
  | cons s rest ih => simp [deltaEnc, ih]

theorem deltaEnc_lt (prev : Nat) (S : List Nat) :
    ∀ d ∈ deltaEnc prev S, d < 65536 := by
  induction S generalizing prev with
  | nil => intro d hd; simp [deltaEnc] at hd
  | cons s rest ih =>
    intro d hd
    simp only [deltaEnc, List.mem_cons] at hd
    rcases hd with h | h
    · omega
    · exact ih s d h

theorem deltaDec_deltaEnc (prev : Nat) (S : List Nat) (hp : prev < 65536)
    (hS : ∀ s ∈ S, s < 65536) : deltaDec prev (deltaEnc prev S) = S := by
  induction S generalizing prev with
  | nil => rfl
  | cons s rest ih =>
    have hs : s < 65536 := hS s (by simp)
    have hhead : (prev + (65536 + s - prev) % 65536) % 65536 = s := by omega
    simp only [deltaEnc, deltaDec, hhead]
    exact congrArg (s :: ·) (ih s hs (fun x hx => hS x (by simp [hx])))

theorem packCodes_length (cs : List Bool) :
    (packCodes cs).length = (cs.length + 3) / 4 := by
  match cs with
  | [] => rfl
  | [_] => simp [packCodes]
  | [_, _] => simp [packCodes]
  | [_, _, _] => simp [packCodes]
  | _ :: _ :: _ :: _ :: rest =>
    have ih := packCodes_length rest
    simp only [packCodes, List.length_cons, ih]
    omega

theorem unpack_pack (cs : List Bool) :
    unpackCodes cs.length (packCodes cs) = cs := by
  match cs with
  | [] => rfl
  | [c0] => cases c0 <;> rfl
  | [c0, c1] => cases c0 <;> cases c1 <;> rfl
  | [c0, c1, c2] => cases c0 <;> cases c1 <;> cases c2 <;> rfl
  | c0 :: c1 :: c2 :: c3 :: rest =>
    have ih := unpack_pack rest
    have hlen : (c0 :: c1 :: c2 :: c3 :: rest).length = rest.length + 4 := by
      simp
    rw [hlen]
    show codesFrom _ (min (rest.length + 3 + 1) 4) ++
        unpackCodes (rest.length + 3 + 1 - 4) (packCodes rest) =
      c0 :: c1 :: c2 :: c3 :: rest
    have hmin : min (rest.length + 3 + 1) 4 = 4 := by omega
    have hsub : rest.length + 3 + 1 - 4 = rest.length := by omega
    rw [hmin, hsub, ih]
    have hfrom : codesFrom
        (codeVal c0 + 4 * codeVal c1 + 16 * codeVal c2 + 64 * codeVal c3) 4 =
        [c0, c1, c2, c3] := by
      cases c0 <;> cases c1 <;> cases c2 <;> cases c3 <;> rfl
    rw [hfrom]
    rfl

theorem decodeData_encode (zs : List Nat) :
    decodeData (zs.map fun z => decide (256 ≤ z)) ((zs.map encBytes).flatten) =
      some (zs, ((zs.map encBytes).flatten).length) := by
  induction zs with
  | nil => rfl
  | cons z rest ih =>
    by_cases hz : z < 256
    · have hcode : (decide (256 ≤ z)) = false := by simp; omega
      simp only [List.map_cons, hcode, encBytes, if_pos hz, List.flatten_cons,
        List.cons_append, List.nil_append, decodeData, ih, List.length_cons]
    · have hcode : (decide (256 ≤ z)) = true := by simp; omega
      have hval : z % 256 + 256 * (z / 256) = z := by omega
      simp only [List.map_cons, hcode, encBytes, if_neg hz, List.flatten_cons,
        List.cons_append, List.nil_append, decodeData, ih, hval, List.length_cons]

theorem encBytes_length_le (z : Nat) : (encBytes z).length ≤ 2 := by
  unfold encBytes; split <;> simp

theorem flatten_encBytes_length_le (zs : List Nat) :
    ((zs.map encBytes).flatten).length ≤ 2 * zs.length := by
  induction zs with
  | nil => simp
  | cons z rest ih =>
    simp only [List.map_cons, List.flatten_cons, List.length_append,
      List.length_cons]
    have := encBytes_length_le z
    omega

theorem svb16_encode_length_le (S : List Nat) :
    (svb16_encode S).length ≤ svb16_max_encoded_length S.length := by
  unfold svb16_encode svb16_max_encoded_length
  simp only [List.length_append, packCodes_length, List.length_map,
    deltaEnc_length]
  have := flatten_encBytes_length_le ((deltaEnc 0 S).map zigzag)
  simp only [List.length_map, deltaEnc_length] at this
  omega

theorem unzigzag_zigzag_map (ds : List Nat) (h : ∀ d ∈ ds, d < 65536) :
    (ds.map zigzag).map unzigzag = ds := by
  induction ds with
  | nil => rfl
  | cons d rest ih =>
    simp only [List.map_cons]
    rw [unzigzag_zigzag d (h d (by simp)), ih (fun x hx => h x (by simp [hx]))]

/-- Round-trip of the bare transform: decoding the encoded bytes with
the original sample count reproduces the samples and consumes the whole
encoded buffer. -/
theorem svb16_decode_encode (S : List Nat) (hS : ∀ s ∈ S, s < 65536) :
    svb16_decode (svb16_encode S) S.length = some (S, (svb16_encode S).length) := by
  unfold svb16_encode svb16_decode
  set zs := (deltaEnc 0 S).map zigzag with hzs
  have hzslen : zs.length = S.length := by
    simp [hzs, deltaEnc_length]
  set codes := zs.map fun z => decide (256 ≤ z) with hcodes
  have hclen : codes.length = S.length := by simp [hcodes, hzslen]
  have hplen : (packCodes codes).length = (S.length + 3) / 4 := by
    rw [packCodes_length, hclen]
  have htake : (packCodes codes ++ (zs.map encBytes).flatten).take ((S.length + 3) / 4)
      = packCodes codes := by
    rw [← hplen, List.take_left]
  have hdrop : (packCodes codes ++ (zs.map encBytes).flatten).drop ((S.length + 3) / 4)
      = (zs.map encBytes).flatten := by
    rw [← hplen, List.drop_left]
  have hlen_ge : ¬(packCodes codes ++ (zs.map encBytes).flatten).length
      < (S.length + 3) / 4 := by
    simp only [List.length_append, hplen]
    omega
  simp only [if_neg hlen_ge, htake, hdrop]
  have hunpack : unpackCodes S.length (packCodes codes) = codes := by
    rw [← hclen, unpack_pack]
  rw [hunpack, hcodes, decodeData_encode]
  have hback : (zs.map unzigzag) = deltaEnc 0 S := by
    rw [hzs, unzigzag_zigzag_map _ (deltaEnc_lt 0 S)]
  simp only [Option.map_some']
  rw [hback, deltaDec_deltaEnc 0 S (by omega) hS]
  simp only [List.length_append, hplen, Option.some.injEq, Prod.mk.injEq,
    true_and]

theorem idZstd_conforms : idZstd.Conforms := by
  constructor
  · intro b c h
    simp only [idZstd, Option.some.injEq] at h
    simp [idZstd, ← h]
  · intro b c h
    simp only [idZstd, Option.some.injEq] at h
    simp [idZstd, ← h]
  · intro b c h
    simp only [idZstd, Option.some.injEq] at h
    simp [idZstd, ← h]
  · intro m n h; simpa [idZstd] using h

/-- C1: for every valid sample buffer S, including the empty buffer and
buffers with all-zero, all-maximum and alternating-sign values,
decompressing the compressed bytes of S with the original sample count
reproduces S exactly. -/
theorem compress_decompress_roundtrip (Z : ZstdModel) (hZ : Z.Conforms)
    (S : List Nat) (hS : ∀ s ∈ S, s < 65536) (c : List Nat)
    (hc : compress_signal Z S = some c) :
    decompress_signal Z c S.length = some S := by
  unfold compress_signal at hc
  have h1 := hZ.contentSize_compress _ _ hc
  have h2 := hZ.decompress_compress _ _ hc
  have h3 := svb16_decode_encode S hS
  simp [decompress_signal, h1, h2, h3]

/-- Concrete run of C1: a buffer holding a zero, the all-ones pattern
(-1), the minimum (-32768) and a positive sample round-trips through the
pipeline over the trivially conforming compressor. -/
theorem compress_decompress_roundtrip_witness :
    decompress_signal idZstd (svb16_encode [0, 65535, 32768, 1]) 4 =
      some [0, 65535, 32768, 1] :=
  compress_decompress_roundtrip idZstd idZstd_conforms
    [0, 65535, 32768, 1] (by decide) _ rfl

/-- C2: the length of the compressed output is at most
compressed_signal_max_size of the sample count, the compressor bound
applied to the closed-form maximum encoded length ceil of n / 4 plus
2 * n. -/
theorem compress_length_le_max_size (Z : ZstdModel) (hZ : Z.Conforms)
    (S : List Nat) (c : List Nat) (hc : compress_signal Z S = some c) :
    c.length ≤ compressed_signal_max_size Z S.length := by
  unfold compressed_signal_max_size
  exact le_trans (hZ.length_compress_le _ _ hc)
    (hZ.compressBound_mono _ _ (svb16_encode_length_le S))

/-- Concrete run of C2: the bound holds for a three-sample buffer over
the trivially conforming compressor. -/
theorem compress_length_le_max_size_witness :
    (svb16_encode [0, 1, 2]).length ≤ compressed_signal_max_size idZstd 3 :=
  compress_length_le_max_size idZstd idZstd_conforms [0, 1, 2] _ rfl

/-- C3: decompression fails when the compressor cannot report the frame
content size, fails when decompression itself errors, and succeeds only
when the transform decoder consumes exactly the reported intermediate
length — so truncated or corrupted payloads are never returned silently
as samples. -/
theorem decompress_error_paths (Z : ZstdModel) (c : List Nat) (n : Nat) :
    (Z.getFrameContentSize c = none → decompress_signal Z c n = none) ∧
    (Z.decompress c = none → decompress_signal Z c n = none) ∧
    (∀ S, decompress_signal Z c n = some S →
      ∃ sz b, Z.getFrameContentSize c = some sz ∧ Z.decompress c = some b ∧
        svb16_decode b n = some (S, sz)) := by
  refine ⟨fun h => by simp [decompress_signal, h], fun h => ?_, fun S hS => ?_⟩
  · unfold decompress_signal
    cases Z.getFrameContentSize c with
    | none => rfl
    | some sz => simp [h]
  · simp only [decompress_signal, Option.bind_eq_some] at hS
    obtain ⟨sz, hfc, b, hdc, p, hsd, hif⟩ := hS
    refine ⟨sz, b, hfc, hdc, ?_⟩
    by_cases hc2 : p.2 = sz
    · rw [if_pos hc2, Option.some.injEq] at hif
      rw [hsd, ← hif, ← hc2]
    · rw [if_neg hc2] at hif
      exact absurd hif (by simp)

/-- Concrete runs of C3: an unknown frame size fails, a failing
decompression fails, and a successful decompression of an intact
single-sample frame decomposes into its three successful stages. -/
theorem decompress_error_paths_witness :
    decompress_signal unknownFrameZstd [0] 0 = none ∧
    decompress_signal failingDecompressZstd [0] 0 = none ∧
    (∃ sz b, idZstd.getFrameContentSize (svb16_encode [5]) = some sz ∧
      idZstd.decompress (svb16_encode [5]) = some b ∧
      svb16_decode b 1 = some ([5], sz)) :=
  ⟨(decompress_error_paths unknownFrameZstd [0] 0).1 rfl,
   (decompress_error_paths failingDecompressZstd [0] 0).2.1 rfl,
   (decompress_error_paths idZstd (svb16_encode [5]) 1).2.2 [5] rfl⟩

/-- C7: evaluation of the compression pipeline with the length-return
slip corrected.  Successful compression of the one-sample buffer with a
zero sample returns exactly the compressed bytes, whose own length is
the exact output length the out-parameter is meant to receive (the
source assigns it from the undeclared identifier compression_size
rather than the computed compressed_size), and when the compressor
errors nothing usable is returned. -/
theorem compress_exact_length_eval :
    compress_signal idZstd [0] = some [0, 0] ∧
    compress_signal unknownFrameZstd [0] = none :=
  ⟨rfl, rfl⟩

end Pod5

namespace Mkr

theorem lookupFieldType_eq (name : String) (l : List SchemaField) :
    lookupFieldType name l =
      (fieldIndexOf name l).map fun i => (l.getD i ⟨"", .other ""⟩).type := by
  induction l with
  | nil => rfl
  | cons f rest ih =>
    by_cases h : f.name = name
    · simp [lookupFieldType, fieldIndexOf, h]
    · simp only [lookupFieldType, fieldIndexOf, if_neg h, ih]
      cases fieldIndexOf name rest <;> simp

theorem lookupType_eq (s : ArrowSchema) (name : String) :
    lookupType s name = (getFieldIndex s name).map (fieldTypeAt s) := by
  unfold lookupType getFieldIndex
  rw [lookupFieldType_eq]
  rfl

theorem checkReadId_of_none (s : ArrowSchema)
    (h : lookupType s "read_id" = none) :
    checkReadId s = .error (.missingField "read_id") := by
  rw [lookupType_eq] at h
  unfold checkReadId
  cases hidx : getFieldIndex s "read_id" with
  | none => rfl
  | some i => rw [hidx] at h; simp at h

theorem checkReadId_of_some (s : ArrowSchema) (t : DataType)
    (h : lookupType s "read_id" = some t) :
    checkReadId s =
      match t with
      | .extension extName =>
          if extName = "minknow.uuid" then .ok (resolvedIdx s "read_id")
          else .error (.wrongExtensionType "read_id")
      | t => .error (.wrongType "read_id" t.name) := by
  rw [lookupType_eq] at h
  unfold checkReadId
  cases hidx : getFieldIndex s "read_id" with
  | none => rw [hidx] at h; simp at h
  | some i =>
    rw [hidx] at h
    simp only [Option.map_some', Option.some.injEq] at h
    dsimp only
    rw [h]
    cases t <;> simp [resolvedIdx, hidx]

theorem checkSignal_of_none (s : ArrowSchema)
    (h : lookupType s "signal" = none) :
    checkSignal s = .error (.missingField "signal") := by
  rw [lookupType_eq] at h
  unfold checkSignal
  cases hidx : getFieldIndex s "signal" with
  | none => rfl
  | some i => rw [hidx] at h; simp at h

theorem checkSignal_of_some (s : ArrowSchema) (t : DataType)
    (h : lookupType s "signal" = some t) :
    checkSignal s =
      match t with
      | .largeList .int16 => .ok (resolvedIdx s "signal")
      | .largeList _ => .error (.wrongListValueType "signal")
      | t => .error (.wrongType "signal" t.name) := by
  rw [lookupType_eq] at h
  unfold checkSignal
  cases hidx : getFieldIndex s "signal" with
  | none => rw [hidx] at h; simp at h
  | some i =>
    rw [hidx] at h
    simp only [Option.map_some', Option.some.injEq] at h
    dsimp only
    rw [h]
    cases t with
    | largeList v => cases v <;> simp [resolvedIdx, hidx]
    | _ => simp [resolvedIdx, hidx]

theorem checkSamples_of_none (s : ArrowSchema)
    (h : lookupType s "samples" = none) :
    checkSamples s = .error (.missingField "samples") := by
  rw [lookupType_eq] at h
  unfold checkSamples
  cases hidx : getFieldIndex s "samples" with
  | none => rfl
  | some i => rw [hidx] at h; simp at h

theorem checkSamples_of_some (s : ArrowSchema) (t : DataType)
    (h : lookupType s "samples" = some t) :
    checkSamples s =
      match t with
      | .uint32 => .ok (resolvedIdx s "samples")
      | t => .error (.wrongType "samples" t.name) := by
  rw [lookupType_eq] at h
  unfold checkSamples
  cases hidx : getFieldIndex s "samples" with
  | none => rw [hidx] at h; simp at h
  | some i =>
    rw [hidx] at h
    simp only [Option.map_some', Option.some.injEq] at h
    dsimp only
    rw [h]
    cases t <;> simp [resolvedIdx, hidx]

theorem checkReadId_of_ext (s : ArrowSchema) (en : String)
    (h : lookupType s "read_id" = some (.extension en)) :
    checkReadId s =
      if en = "minknow.uuid" then .ok (resolvedIdx s "read_id")
      else .error (.wrongExtensionType "read_id") := by
  rw [checkReadId_of_some s _ h]

theorem checkReadId_of_nonext (s : ArrowSchema) (t : DataType)
    (h : lookupType s "read_id" = some t) (hne : ∀ en, t ≠ .extension en) :
    checkReadId s = .error (.wrongType "read_id" t.name) := by
  rw [checkReadId_of_some s _ h]
  cases t with
  | extension en => exact absurd rfl (hne en)
  | _ => rfl

theorem checkSignal_of_nonlist (s : ArrowSchema) (t : DataType)
    (h : lookupType s "signal" = some t) (hne : ∀ v, t ≠ .largeList v) :
    checkSignal s = .error (.wrongType "signal" t.name) := by
  rw [checkSignal_of_some s _ h]
  cases t with
  | largeList v => exact absurd rfl (hne v)
  | _ => rfl

theorem checkSignal_of_largeList (s : ArrowSchema) (v : DataType)
    (h : lookupType s "signal" = some (.largeList v)) :
    checkSignal s =
      if v = .int16 then .ok (resolvedIdx s "signal")
      else .error (.wrongListValueType "signal") := by
  rw [checkSignal_of_some s _ h]
  cases v <;> rfl

theorem checkSamples_of_nonuint (s : ArrowSchema) (t : DataType)
    (h : lookupType s "samples" = some t) (hne : t ≠ .uint32) :
    checkSamples s = .error (.wrongType "samples" t.name) := by
  rw [checkSamples_of_some s _ h]
  cases t with
  | uint32 => exact absurd rfl hne
  | _ => rfl

theorem checkReadId_ok_of_good (s : ArrowSchema) (h : goodReadId s = true) :
    checkReadId s = .ok (resolvedIdx s "read_id") := by
  have hl : lookupType s "read_id" = some (.extension "minknow.uuid") := by
    simpa [goodReadId] using h
  rw [checkReadId_of_ext s _ hl, if_pos rfl]

theorem checkSignal_ok_of_good (s : ArrowSchema) (h : goodSignal s = true) :
    checkSignal s = .ok (resolvedIdx s "signal") := by
  have hl : lookupType s "signal" = some (.largeList .int16) := by
    simpa [goodSignal] using h
  rw [checkSignal_of_largeList s _ hl, if_pos rfl]

theorem checkSamples_ok_of_good (s : ArrowSchema) (h : goodSamples s = true) :
    checkSamples s = .ok (resolvedIdx s "samples") := by
  have hl : lookupType s "samples" = some .uint32 := by
    simpa [goodSamples] using h
  rw [checkSamples_of_some s _ hl]

theorem checkReadId_error_spec (s : ArrowSchema) (e : SchemaError)
    (h : checkReadId s = .error e) :
    e.fieldName = "read_id" ∧ goodReadId s = false := by
  cases hl : lookupType s "read_id" with
  | none =>
    rw [checkReadId_of_none s hl] at h
    simp only [Except.error.injEq] at h
    subst h
    exact ⟨rfl, by simp [goodReadId, hl]⟩
  | some t =>
    cases t with
    | extension en =>
      rw [checkReadId_of_ext s en hl] at h
      by_cases hen : en = "minknow.uuid"
      · rw [if_pos hen] at h; exact absurd h (by simp)
      · rw [if_neg hen] at h
        simp only [Except.error.injEq] at h
        subst h
        exact ⟨rfl, by simp [goodReadId, hl, hen]⟩
    | int16 =>
      rw [checkReadId_of_nonext s _ hl (by intro en hx; exact absurd hx (by simp))] at h
      simp only [Except.error.injEq] at h
      subst h
      exact ⟨rfl, by simp [goodReadId, hl]⟩
    | uint32 =>
      rw [checkReadId_of_nonext s _ hl (by intro en hx; exact absurd hx (by simp))] at h
      simp only [Except.error.injEq] at h
      subst h
      exact ⟨rfl, by simp [goodReadId, hl]⟩
    | largeList v =>
      rw [checkReadId_of_nonext s _ hl (by intro en hx; exact absurd hx (by simp))] at h
      simp only [Except.error.injEq] at h
      subst h
      exact ⟨rfl, by simp [goodReadId, hl]⟩
    | list v =>
      rw [checkReadId_of_nonext s _ hl (by intro en hx; exact absurd hx (by simp))] at h
      simp only [Except.error.injEq] at h
      subst h
      exact ⟨rfl, by simp [goodReadId, hl]⟩
    | fixedSizeBinary w =>
      rw [checkReadId_of_nonext s _ hl (by intro en hx; exact absurd hx (by simp))] at h
      simp only [Except.error.injEq] at h
      subst h
      exact ⟨rfl, by simp [goodReadId, hl]⟩
    | other tn =>
      rw [checkReadId_of_nonext s _ hl (by intro en hx; exact absurd hx (by simp))] at h
      simp only [Except.error.injEq] at h
      subst h
      exact ⟨rfl, by simp [goodReadId, hl]⟩

theorem checkReadId_good_of_ok (s : ArrowSchema) (i : Nat)
    (h : checkReadId s = .ok i) : goodReadId s = true := by
  by_cases hg : goodReadId s = true
  · exact hg
  · exfalso
    cases hc : checkReadId s with
    | ok j => ?_
    | error e => rw [hc] at h; exact absurd h (by simp)
    rw [hc] at h
    cases hl : lookupType s "read_id" with
    | none => rw [checkReadId_of_none s hl] at hc; exact absurd hc (by simp)
    | some t =>
      cases t with
      | extension en =>
        rw [checkReadId_of_ext s en hl] at hc
        by_cases hen : en = "minknow.uuid"
        · subst hen
          exact hg (by simp [goodReadId, hl])
        · rw [if_neg hen] at hc; exact absurd hc (by simp)
      | int16 =>
        rw [checkReadId_of_nonext s _ hl (by intro en hx; exact absurd hx (by simp))] at hc
        exact absurd hc (by simp)
      | uint32 =>
        rw [checkReadId_of_nonext s _ hl (by intro en hx; exact absurd hx (by simp))] at hc
        exact absurd hc (by simp)
      | largeList v =>
        rw [checkReadId_of_nonext s _ hl (by intro en hx; exact absurd hx (by simp))] at hc
        exact absurd hc (by simp)
      | list v =>
        rw [checkReadId_of_nonext s _ hl (by intro en hx; exact absurd hx (by simp))] at hc
        exact absurd hc (by simp)
      | fixedSizeBinary w =>
        rw [checkReadId_of_nonext s _ hl (by intro en hx; exact absurd hx (by simp))] at hc
        exact absurd hc (by simp)
      | other tn =>
        rw [checkReadId_of_nonext s _ hl (by intro en hx; exact absurd hx (by simp))] at hc
        exact absurd hc (by simp)

theorem checkSignal_error_spec (s : ArrowSchema) (e : SchemaError)
    (h : checkSignal s = .error e) :
    e.fieldName = "signal" ∧ goodSignal s = false := by
  cases hl : lookupType s "signal" with
  | none =>
    rw [checkSignal_of_none s hl] at h
    simp only [Except.error.injEq] at h
    subst h
    exact ⟨rfl, by simp [goodSignal, hl]⟩
  | some t =>
    cases t
    case largeList v =>
      rw [checkSignal_of_largeList s v hl] at h
      by_cases hv : v = DataType.int16
      · rw [if_pos hv] at h; exact absurd h (by simp)
      · rw [if_neg hv] at h
        simp only [Except.error.injEq] at h
        subst h
        exact ⟨rfl, by simp [goodSignal, hl, hv]⟩
    all_goals
      (rw [checkSignal_of_nonlist s _ hl (by intro v hx; exact absurd hx (by simp))] at h;
       simp only [Except.error.injEq] at h; subst h;
       exact ⟨rfl, by simp [goodSignal, hl]⟩)

theorem checkSignal_good_of_ok (s : ArrowSchema) (i : Nat)
    (h : checkSignal s = .ok i) : goodSignal s = true := by
  cases hl : lookupType s "signal" with
  | none => rw [checkSignal_of_none s hl] at h; exact absurd h (by simp)
  | some t =>
    cases t
    case largeList v =>
      rw [checkSignal_of_largeList s v hl] at h
      by_cases hv : v = DataType.int16
      · subst hv; simp [goodSignal, hl]
      · rw [if_neg hv] at h; exact absurd h (by simp)
    all_goals
      (rw [checkSignal_of_nonlist s _ hl (by intro v hx; exact absurd hx (by simp))] at h;
       exact absurd h (by simp))

theorem checkSamples_error_spec (s : ArrowSchema) (e : SchemaError)
    (h : checkSamples s = .error e) :
    e.fieldName = "samples" ∧ goodSamples s = false := by
  cases hl : lookupType s "samples" with
  | none =>
    rw [checkSamples_of_none s hl] at h
    simp only [Except.error.injEq] at h
    subst h
    exact ⟨rfl, by simp [goodSamples, hl]⟩
  | some t =>
    cases t
    case uint32 =>
      rw [checkSamples_of_some s _ hl] at h
      exact absurd h (by simp)
    all_goals
      (rw [checkSamples_of_nonuint s _ hl (by intro hx; exact absurd hx (by simp))] at h;
       simp only [Except.error.injEq] at h; subst h;
       exact ⟨rfl, by simp [goodSamples, hl]⟩)

theorem checkSamples_good_of_ok (s : ArrowSchema) (i : Nat)
    (h : checkSamples s = .ok i) : goodSamples s = true := by
  cases hl : lookupType s "samples" with
  | none => rw [checkSamples_of_none s hl] at h; exact absurd h (by simp)
  | some t =>
    cases t
    case uint32 => simp [goodSamples, hl]
    all_goals
      (rw [checkSamples_of_nonuint s _ hl (by intro hx; exact absurd hx (by simp))] at h;
       exact absurd h (by simp))

theorem read_of_checkReadId_error (s : ArrowSchema) (e : SchemaError)
    (h : checkReadId s = .error e) :
    read_signal_table_schema s = .error e := by
  unfold read_signal_table_schema
  rw [h]

theorem read_of_checkSignal_error (s : ArrowSchema) (i : Nat) (e : SchemaError)
    (hr : checkReadId s = .ok i) (h : checkSignal s = .error e) :
    read_signal_table_schema s = .error e := by
  unfold read_signal_table_schema
  rw [hr, h]

theorem read_ok_elim (s : ArrowSchema) (d : SignalTableSchemaDescription)
    (h : read_signal_table_schema s = .ok d) :
    checkReadId s = .ok d.read_id ∧ checkSignal s = .ok d.signal ∧
      checkSamples s = .ok d.samples := by
  unfold read_signal_table_schema at h
  cases hr : checkReadId s with
  | error e => rw [hr] at h; exact absurd h (by simp)
  | ok i =>
    rw [hr] at h
    cases hg : checkSignal s with
    | error e => rw [hg] at h; exact absurd h (by simp)
    | ok j =>
      rw [hg] at h
      cases hm : checkSamples s with
      | error e => rw [hm] at h; exact absurd h (by simp)
      | ok k =>
        rw [hm] at h
        simp only [Except.ok.injEq] at h
        subst h
        exact ⟨rfl, rfl, rfl⟩

/-- Any schema the validator accepts carries the three required columns
with exactly the contractual types. -/
theorem read_ok_types (s : ArrowSchema) (d : SignalTableSchemaDescription)
    (h : read_signal_table_schema s = .ok d) :
    lookupType s "read_id" = some (.extension "minknow.uuid") ∧
    lookupType s "signal" = some (.largeList .int16) ∧
    lookupType s "samples" = some .uint32 := by
  obtain ⟨hr, hg, hm⟩ := read_ok_elim s d h
  refine ⟨?_, ?_, ?_⟩
  · simpa [goodReadId] using checkReadId_good_of_ok s _ hr
  · simpa [goodSignal] using checkSignal_good_of_ok s _ hg
  · simpa [goodSamples] using checkSamples_good_of_ok s _ hm

/-- C6: validation fails with an error naming the offending column when
any required column is missing or mistyped, succeeds exactly when all
three required columns carry their contractual types regardless of
column order or extra columns, and on success returns the resolved
column positions. -/
theorem schema_validation_complete (s : ArrowSchema) :
    (∀ e, read_signal_table_schema s = .error e →
      (e.fieldName = "read_id" ∧ goodReadId s = false) ∨
      (e.fieldName = "signal" ∧ goodSignal s = false) ∨
      (e.fieldName = "samples" ∧ goodSamples s = false)) ∧
    (∀ d, read_signal_table_schema s = .ok d →
      goodReadId s = true ∧ goodSignal s = true ∧ goodSamples s = true) ∧
    (goodReadId s = true → goodSignal s = true → goodSamples s = true →
      read_signal_table_schema s =
        .ok ⟨resolvedIdx s "read_id", resolvedIdx s "signal",
             resolvedIdx s "samples"⟩) := by
  refine ⟨fun e he => ?_, fun d hd => ?_, fun h1 h2 h3 => ?_⟩
  · unfold read_signal_table_schema at he
    cases hr : checkReadId s with
    | error e0 =>
      rw [hr] at he
      simp only [Except.error.injEq] at he
      subst he
      exact Or.inl (checkReadId_error_spec s _ hr)
    | ok i =>
      rw [hr] at he
      cases hg : checkSignal s with
      | error e0 =>
        rw [hg] at he
        simp only [Except.error.injEq] at he
        subst he
        exact Or.inr (Or.inl (checkSignal_error_spec s _ hg))
      | ok j =>
        rw [hg] at he
        cases hm : checkSamples s with
        | error e0 =>
          rw [hm] at he
          simp only [Except.error.injEq] at he
          subst he
          exact Or.inr (Or.inr (checkSamples_error_spec s _ hm))
        | ok k =>
          rw [hm] at he
          exact absurd he (by simp)
  · obtain ⟨hr, hg, hm⟩ := read_ok_elim s d hd
    exact ⟨checkReadId_good_of_ok s _ hr, checkSignal_good_of_ok s _ hg,
      checkSamples_good_of_ok s _ hm⟩
  · unfold read_signal_table_schema
    rw [checkReadId_ok_of_good s h1, checkSignal_ok_of_good s h2,
      checkSamples_ok_of_good s h3]

/-- Concrete run of C6: a schema holding the three contractual columns
in scrambled order together with an unrelated extra column validates,
resolving the positions 2, 3 and 1. -/
theorem schema_validation_complete_witness :
    read_signal_table_schema
        ⟨[⟨"extra", .other "utf8"⟩, ⟨"samples", .uint32⟩,
          ⟨"read_id", .extension "minknow.uuid"⟩,
          ⟨"signal", .largeList .int16⟩], []⟩ =
      .ok ⟨2, 3, 1⟩ :=
  (schema_validation_complete _).2.2 (by decide) (by decide) (by decide)

/-- C4 counterexample: the schema builder emits columns named read_id,
signal and samples; it emits no column named payload or sample_count,
and the validator rejects a schema carrying the claimed names payload
and sample_count. -/
theorem signal_schema_names_counterexample :
    (make_signal_table_schema []).fields.map SchemaField.name =
        ["read_id", "signal", "samples"] ∧
    lookupType (make_signal_table_schema []) "payload" = none ∧
    lookupType (make_signal_table_schema []) "sample_count" = none ∧
    read_signal_table_schema
        ⟨[⟨"read_id", .extension "minknow.uuid"⟩,
          ⟨"payload", .largeList .int16⟩,
          ⟨"sample_count", .uint32⟩], []⟩ =
      .error (.missingField "signal") := by
  refine ⟨rfl, rfl, rfl, ?_⟩
  rfl

/-- C4 (amended): the wire-contract columns are read_id as the 128-bit
minknow.uuid extension type, signal as a large list of signed 16-bit
integers, and samples as an unsigned 32-bit integer; the builder emits
exactly these three fields, the validator accepts them at positions 0,
1, 2, and any schema the validator accepts carries exactly these names
and types. -/
theorem signal_schema_names_amended (metadata : List (String × String)) :
    (make_signal_table_schema metadata).fields =
      [⟨"read_id", .extension "minknow.uuid"⟩,
       ⟨"signal", .largeList .int16⟩,
       ⟨"samples", .uint32⟩] ∧
    read_signal_table_schema (make_signal_table_schema metadata) =
      .ok ⟨0, 1, 2⟩ ∧
    (∀ s d, read_signal_table_schema s = .ok d →
      lookupType s "read_id" = some (.extension "minknow.uuid") ∧
      lookupType s "signal" = some (.largeList .int16) ∧
      lookupType s "samples" = some .uint32) :=
  ⟨rfl, rfl, fun s d hd => read_ok_types s d hd⟩

/-- Concrete run of C4 (amended): the schema the builder emits does
carry the three contractual columns. -/
theorem signal_schema_names_amended_witness :
    lookupType (make_signal_table_schema []) "read_id" =
        some (.extension "minknow.uuid") ∧
    lookupType (make_signal_table_schema []) "signal" =
        some (.largeList .int16) ∧
    lookupType (make_signal_table_schema []) "samples" = some .uint32 :=
  (signal_schema_names_amended []).2.2 _ ⟨0, 1, 2⟩ rfl

/-- C10: the validator accepts read_id only as an extension type named
exactly minknow.uuid and signal only as a large list of int16; another
extension name is rejected with the extension-type error, a 128-bit
fixed-width binary with a wrong-type error, and a plain variable-length
list with a wrong-type error, each naming the column. -/
theorem validator_exact_types (s : ArrowSchema) :
    (∀ d, read_signal_table_schema s = .ok d →
      lookupType s "read_id" = some (.extension "minknow.uuid") ∧
      lookupType s "signal" = some (.largeList .int16)) ∧
    (∀ en, en ≠ "minknow.uuid" →
      lookupType s "read_id" = some (.extension en) →
      read_signal_table_schema s = .error (.wrongExtensionType "read_id")) ∧
    (∀ w, lookupType s "read_id" = some (.fixedSizeBinary w) →
      read_signal_table_schema s =
        .error (.wrongType "read_id" "fixed_size_binary")) ∧
    (∀ v, goodReadId s = true → lookupType s "signal" = some (.list v) →
      read_signal_table_schema s = .error (.wrongType "signal" "list")) := by
  refine ⟨fun d hd => ?_, fun en hen hl => ?_, fun w hl => ?_,
    fun v hg hl => ?_⟩
  · exact ⟨(read_ok_types s d hd).1, (read_ok_types s d hd).2.1⟩
  · refine read_of_checkReadId_error s _ ?_
    rw [checkReadId_of_ext s en hl, if_neg hen]
  · refine read_of_checkReadId_error s _ ?_
    rw [checkReadId_of_nonext s _ hl (by intro en hx; exact absurd hx (by simp))]
    rfl
  · refine read_of_checkSignal_error s (resolvedIdx s "read_id") _
      (checkReadId_ok_of_good s hg) ?_
    rw [checkSignal_of_nonlist s _ hl (by intro u hx; exact absurd hx (by simp))]
    rfl

/-- Concrete runs of C10: a foreign extension name, a raw 128-bit
fixed-width binary, and a plain list of int16 are each rejected with the
error the validator raises for that shape. -/
theorem validator_exact_types_witness :
    read_signal_table_schema
        ⟨[⟨"read_id", .extension "other.uuid"⟩, ⟨"signal", .largeList .int16⟩,
          ⟨"samples", .uint32⟩], []⟩ =
      .error (.wrongExtensionType "read_id") ∧
    read_signal_table_schema
        ⟨[⟨"read_id", .fixedSizeBinary 16⟩, ⟨"signal", .largeList .int16⟩,
          ⟨"samples", .uint32⟩], []⟩ =
      .error (.wrongType "read_id" "fixed_size_binary") ∧
    read_signal_table_schema
        ⟨[⟨"read_id", .extension "minknow.uuid"⟩, ⟨"signal", .list .int16⟩,
          ⟨"samples", .uint32⟩], []⟩ =
      .error (.wrongType "signal" "list") :=
  ⟨(validator_exact_types _).2.1 "other.uuid" (by decide) rfl,
   (validator_exact_types _).2.2.1 16 rfl,
   (validator_exact_types _).2.2.2 .int16 (by decide) rfl⟩

theorem totalRows_flush (accept : List Row → Bool) (w : SignalTableWriter) :
    totalRows (flush accept w).2 = totalRows w := by
  unfold flush totalRows
  split
  · rfl
  · split
    · rfl
    · split
      · simp
      · rfl

theorem add_read_spec (Z : Pod5.ZstdModel) (w : SignalTableWriter)
    (rid : Nat) (samples : List Nat) :
    (∃ e, add_read Z w rid samples = (.error e, w)) ∨
    (∃ w1, add_read Z w rid samples = (.ok (totalRows w), w1) ∧
      totalRows w1 = totalRows w + 1) := by
  unfold add_read
  by_cases hc : w.closed
  · exact Or.inl ⟨.writerClosed, by rw [if_pos hc]⟩
  · rw [if_neg hc]
    cases Pod5.compress_signal Z samples with
    | none => exact Or.inl ⟨.encodingFailed, rfl⟩
    | some payload =>
      refine Or.inr ⟨_, rfl, ?_⟩
      simp only [totalRows, List.length_append, List.length_cons,
        List.length_nil]
      omega

theorem runOps_range' (Z : Pod5.ZstdModel) (ops : List WriterOp)
    (w : SignalTableWriter) :
    ∃ n, (runOps Z ops w).2 = List.range' (totalRows w) n := by
  induction ops generalizing w with
  | nil => exact ⟨0, rfl⟩
  | cons op rest ih =>
    cases op with
    | addRead rid samples =>
      rcases add_read_spec Z w rid samples with ⟨e, hA⟩ | ⟨w1, hA, hT⟩
      · obtain ⟨n, hn⟩ := ih w
        refine ⟨n, ?_⟩
        simp only [runOps, hA]
        exact hn
      · obtain ⟨n, hn⟩ := ih w1
        refine ⟨n + 1, ?_⟩
        simp only [runOps, hA]
        rw [hn, hT, List.range'_succ]
    | flushOp accept =>
      obtain ⟨n, hn⟩ := ih (flush accept w).2
      refine ⟨n, ?_⟩
      simp only [runOps]
      rw [hn, totalRows_flush]

/-- C5: over any trace of add_read and flush operations from a fresh
writer, the indices returned by the successful add_read calls are
exactly 0, 1, 2, ... in call order: the i-th returned index is i
regardless of flush timing, as each call returns
flushed_row_count + current_batch_row_count - 1. -/
theorem writer_row_addressing (Z : Pod5.ZstdModel) (ops : List WriterOp) :
    (runOps Z ops initWriter).2 =
      List.range (runOps Z ops initWriter).2.length := by
  obtain ⟨n, hn⟩ := runOps_range' Z ops initWriter
  rw [List.range_eq_range', hn]
  simp [totalRows, initWriter, List.length_range']

/-- C8: on a closed writer, add_read and flush fail with the
writer-closed error leaving the state untouched, and close is a no-op:
there is no transition out of the Closed state. -/
theorem closed_writer_rejection (Z : Pod5.ZstdModel)
    (accept : List Row → Bool) (w : SignalTableWriter) (rid : Nat)
    (samples : List Nat) (h : w.closed = true) :
    add_read Z w rid samples = (.error .writerClosed, w) ∧
    flush accept w = (some .writerClosed, w) ∧
    close accept w = (none, w) := by
  refine ⟨?_, ?_, ?_⟩
  · unfold add_read; rw [if_pos h]
  · unfold flush; rw [if_pos h]
  · unfold close; rw [if_pos h]

/-- Concrete run of C8: a closed writer holding one flushed row rejects
an add_read and a flush and is unchanged by close. -/
theorem closed_writer_rejection_witness :
    add_read Pod5.idZstd ⟨true, 1, [], [[(7, [0], 1)]]⟩ 9 [0] =
      (.error .writerClosed, ⟨true, 1, [], [[(7, [0], 1)]]⟩) ∧
    flush (fun _ => true) ⟨true, 1, [], [[(7, [0], 1)]]⟩ =
      (some .writerClosed, ⟨true, 1, [], [[(7, [0], 1)]]⟩) ∧
    close (fun _ => true) ⟨true, 1, [], [[(7, [0], 1)]]⟩ =
      (none, ⟨true, 1, [], [[(7, [0], 1)]]⟩) :=
  closed_writer_rejection Pod5.idZstd (fun _ => true) _ 9 [0] rfl

/-- C9: on an open writer, flush with an empty batch is a no-op; when
the sink rejects a nonempty batch, flush reports the sink error with the
writer state, including every buffered row, unchanged; and a retry whose
sink accepts emits exactly the preserved batch. -/
theorem flush_failure_preserves_buffer (accept : List Row → Bool)
    (w : SignalTableWriter) (hopen : w.closed = false) :
    (w.batch.isEmpty = true → flush accept w = (none, w)) ∧
    (w.batch.isEmpty = false → accept w.batch = false →
      flush accept w = (some .sinkError, w)) ∧
    (w.batch.isEmpty = false → accept w.batch = true →
      (flush accept w).1 = none ∧
      (flush accept w).2.emitted = w.emitted ++ [w.batch]) := by
  refine ⟨fun he => ?_, fun he hr => ?_, fun he ha => ?_⟩
  · unfold flush; rw [if_neg (by simp [hopen]), if_pos he]
  · unfold flush
    rw [if_neg (by simp [hopen]), if_neg (by simp [he]), if_neg (by simp [hr])]
  · unfold flush
    rw [if_neg (by simp [hopen]), if_neg (by simp [he]), if_pos ha]
    exact ⟨rfl, rfl⟩

/-- Concrete run of C9: a rejecting sink leaves a one-row batch in
place, an accepting retry emits that same batch, and an empty flush is a
no-op. -/
theorem flush_failure_preserves_buffer_witness :
    flush (fun _ => false) ⟨false, 0, [(7, [0], 1)], []⟩ =
      (some .sinkError, ⟨false, 0, [(7, [0], 1)], []⟩) ∧
    (flush (fun _ => true) ⟨false, 0, [(7, [0], 1)], []⟩).2.emitted =
      [[(7, [0], 1)]] ∧
    flush (fun _ => true) ⟨false, 0, [], [[(7, [0], 1)]]⟩ =
      (none, ⟨false, 0, [], [[(7, [0], 1)]]⟩) :=
  ⟨(flush_failure_preserves_buffer (fun _ => false)
      ⟨false, 0, [(7, [0], 1)], []⟩ rfl).2.1 rfl rfl,
   ((flush_failure_preserves_buffer (fun _ => true)
      ⟨false, 0, [(7, [0], 1)], []⟩ rfl).2.2 rfl rfl).2,
   (flush_failure_preserves_buffer (fun _ => true)
      ⟨false, 0, [], [[(7, [0], 1)]]⟩ rfl).1 rfl⟩

end Mkr
